import Mathlib

/-!
Verification development for the go-json-schema-generate repository.

The Go sources (generator.go, esoutput.go) are shallowly embedded:
pure functions become Lean functions, the mutable engine state
(`Structs`, `Aliases`, `anonCount`, and the per-node `GeneratedType`
memo) is threaded explicitly through a `GenState` record, schema node
trees become an arena of nodes addressed by numeric ids (pointer
identity), and the unbounded mutual recursion of the resolution engine
and of the mapping renderer is made total with an explicit fuel
parameter (fuel exhaustion is a distinguished outcome, separate from
the error values the Go code produces).

Go maps are modelled as association lists.  Declarations that are not
part of the given sources (the `Schema` struct internals, the
`RefResolver`, `FixMissingTypeValue`, `MultiType`, the ordering
helpers of the output stage) are modelled from the specification and
marked as such in their doc comments.
-/

namespace SchemaGen

/-- Unicode letter test, modelled on the ASCII range exercised here
(Go `unicode.IsLetter`). -/
def isLetterCh (c : Char) : Bool := c.isAlpha

/-- Unicode digit test, modelled on the ASCII range exercised here
(Go `unicode.IsDigit`). -/
def isDigitCh (c : Char) : Bool := c.isDigit

/-- Embeds `isNotAGoNameCharacter` from generator.go. -/
def isNotAGoNameCharacter (r : Char) : Bool :=
  if isLetterCh r || isDigitCh r then false else true

/-- Embeds `splitOnAll` from generator.go.  The accumulator `buf` is
the byte buffer of the Go code: every delimiter flushes the current
buffer (even when it is empty), and the final buffer is flushed only
when non-empty. -/
def splitOnAllAux (shouldSplit : Char → Bool) : List Char → List Char → List (List Char)
  | [], buf => if buf.length > 0 then [buf] else []
  | c :: cs, buf =>
    if shouldSplit c then buf :: splitOnAllAux shouldSplit cs []
    else splitOnAllAux shouldSplit cs (buf ++ [c])

/-- Embeds `splitOnAll` from generator.go (entry point). -/
def splitOnAll (s : List Char) (shouldSplit : Char → Bool) : List (List Char) :=
  splitOnAllAux shouldSplit s []

/-- Embeds `capitaliseFirstLetter` from generator.go (the Go code
upcases the first byte; on the ASCII inputs modelled here that is the
first character). -/
def capitaliseFirstLetter : List Char → List Char
  | [] => []
  | c :: cs => c.toUpper :: cs

/-- Embeds `applyConventions` from generator.go: exact-match lookup in
the injected convention table, else pass through unchanged. -/
def applyConventions (fragment : String) (conventions : List (String × String)) : String :=
  match conventions.lookup fragment with
  | some conv => conv
  | none => fragment

/-- Go `strings.IndexAny(v, "0123456789") == 0`: the fragment begins
with a decimal digit. -/
def beginsWithDigit : List Char → Bool
  | [] => false
  | c :: _ => c.isDigit

/-- Embeds `getGolangName` from generator.go: split on every
non-letter/digit character, capitalise each fragment, apply the
convention table, concatenate; an underscore is prepended when the
fragment at index 0 begins with a digit. -/
def getGolangName (s : String) (conventions : List (String × String)) : String :=
  String.join ((splitOnAll s.data isNotAGoNameCharacter).enum.map (fun p =>
    (if p.1 = 0 ∧ beginsWithDigit p.2 then "_" else "")
      ++ applyConventions (String.mk (capitaliseFirstLetter p.2)) conventions))

/-- Go `strings.Trim`: remove every leading and trailing character
belonging to the cutset. -/
def stringsTrim (s : String) (cutset : List Char) : String :=
  String.mk (((s.data.dropWhile (fun c => cutset.contains c)).reverse.dropWhile
    (fun c => cutset.contains c)).reverse)

/-- Embeds `contains` from generator.go. -/
def contains (s : List String) (e : String) : Bool := s.any (fun a => a = e)

/-- Embeds `getPrimitiveTypeName` from generator.go.  Errors are the
literal Go error messages; the Go code also returns a placeholder
string next to the error, which propagation always discards, so only
the error is modelled on the failure paths. -/
def getPrimitiveTypeName (schemaType : String) (subType : String) (pointer : Bool) :
    Except String String :=
  match schemaType with
  | "array" =>
    if subType = "" then .error "can't create an array of an empty subtype"
    else
      let subType := if subType = "int" then "int64" else subType
      .ok ("[]" ++ stringsTrim subType ['*'])
  | "boolean" => .ok "bool"
  | "integer" => .ok "int"
  | "number" => .ok "float64"
  | "null" => .ok "nil"
  | "object" =>
    if subType = "" then .error "can't create an object of an empty subtype"
    else if pointer then .ok ("*" ++ subType)
    else .ok subType
  | "string" => .ok "string"
  | _ => .error ("failed to get a primitive type for schemaType " ++ schemaType
      ++ " and subtype " ++ subType)

/-- Embeds `stringFormatType` from generator.go. -/
structure stringFormatType where
  PackageName : String
  TypeName : String
deriving DecidableEq

/-- Embeds `formatCustomTypes` from generator.go. -/
def formatCustomTypes : List (String × stringFormatType) :=
  [("date-time", { PackageName := "time", TypeName := "time.Time" }),
   ("uuid", { PackageName := "github.com/google/uuid", TypeName := "uuid.UUID" })]

/-- Embeds `Field` from generator.go.  The Go field `Type` is spelled
`Typ` because `Type` is reserved in Lean. -/
structure Field where
  Name : String
  JSONName : String
  Typ : String
  Required : Bool
  Description : String
  Format : String
deriving DecidableEq

instance : Inhabited Field :=
  ⟨{ Name := "", JSONName := "", Typ := "", Required := false, Description := "", Format := "" }⟩

/-- Embeds `Struct` from generator.go.  The Go `Fields` map is an
association list from generated field name to field, in insertion
order. -/
structure Struct where
  ID : String
  Name : String
  Description : String
  Fields : List (String × Field)
  GenerateCode : Bool := false
  AdditionalType : String := ""
  importTypes : List String := []
deriving DecidableEq

instance : Inhabited Struct :=
  ⟨{ ID := "", Name := "", Description := "", Fields := [] }⟩

/-- The three-way `AdditionalProperties` variant of a schema node:
absent, boolean, or a nested sub-schema (referenced by arena id). -/
inductive AdditionalProps where
  | absent : AdditionalProps
  | bool (b : Bool) : AdditionalProps
  | schema (id : Nat) : AdditionalProps
deriving DecidableEq

/-- One parsed schema node.  Children are arena ids; `parent` is the
weak back-reference; `typeValue` is the list of declared primitive
type tags.  In the Go code `Properties` and `Definitions` are builtin
maps with string keys, and the engine ranges over them without fixing
an order, so their per-run iteration order is unspecified; they are
modelled as association lists, which fixes ONE materialization order
per arena.  Within a single run this is faithful (every execution of
the Go code corresponds to some list order), but facts that compare
two runs must account for the order being a modelling choice — see
the determinism counterexample below, which exhibits the order
dependence explicitly. -/
structure SchemaNode where
  id : String := ""
  title : String := ""
  description : String := ""
  format : String := ""
  jsonKey : String := ""
  pathElement : String := ""
  parent : Option Nat := none
  properties : List (String × Nat) := []
  items : Option Nat := none
  required : List String := []
  additionalProperties : AdditionalProps := .absent
  definitions : List (String × Nat) := []
  reference : String := ""
  typeValue : List String := []
deriving DecidableEq

instance : Inhabited SchemaNode := ⟨{}⟩

/-- The mutable state a resolution pass works on: the two registries
and the anonymous-name counter of `Generator` (generator.go), plus
the per-node `GeneratedType` memo, keyed by node identity.  In the Go
code the memo is a field OF the schema node, written and read through
the node pointer (generator.go:104, :113, :213); hosting it here,
keyed by node id, is equivalent within one run.  Across runs it is
not part of the engine: `New` builds only the `Generator`, so the
memos survive a fresh engine on shared nodes — `freshEngineState`
below models exactly that, and the determinism counterexample uses
it. -/
structure GenState where
  Structs : List (String × Struct)
  Aliases : List (String × Field)
  anonCount : Nat
  memo : List (Nat × String)
deriving DecidableEq

/-- The state a freshly constructed engine (`New` in generator.go)
starts from, over schema nodes whose `GeneratedType` memos currently
hold `memo0`: registries and counter are reset, the node-resident
memos are whatever the nodes carry. -/
def freshEngineState (memo0 : List (Nat × String)) : GenState :=
  { Structs := [], Aliases := [], anonCount := 0, memo := memo0 }

/-- The state a fresh engine starts from over freshly parsed nodes:
every node memo unset. -/
def initState : GenState := { Structs := [], Aliases := [], anonCount := 0, memo := [] }

/-- Go map assignment on an association list: replace the value in
place when the key exists, else append. -/
def insertKV {β : Type} (l : List (String × β)) (k : String) (v : β) : List (String × β) :=
  match l with
  | [] => [(k, v)]
  | (k1, v1) :: t => if k1 = k then (k, v) :: t else (k1, v1) :: insertKV t k v

/-- Same map assignment for `Nat` keys (the memo registry). -/
def insertMemo (l : List (Nat × String)) (k : Nat) (v : String) : List (Nat × String) :=
  match l with
  | [] => [(k, v)]
  | (k1, v1) :: t => if k1 = k then (k, v) :: t else (k1, v1) :: insertMemo t k v

/-- Reading a node's `GeneratedType` memo; unset reads as `""` (the Go
zero string). -/
def memoGet (st : GenState) (id : Nat) : String :=
  match st.memo.lookup id with
  | some v => v
  | none => ""

/-- The resolution context: the schema node arena, the reference
resolver, and the convention table.  The resolver is modelled from the
spec by its contract only: a resolve-by-reference map and a
diagnostics path per node. -/
structure Ctx where
  nodes : List SchemaNode
  resolve : String → Option Nat
  paths : Nat → String
  conventions : List (String × String)

/-- Arena lookup (dereferencing a schema node pointer). -/
def Ctx.node (ctx : Ctx) (id : Nat) : SchemaNode := ctx.nodes.getD id {}

/-- Go map indexing on an association list (first matching key). -/
def lookupKV {β : Type} : List (String × β) → String → Option β
  | [], _ => none
  | (k1, v1) :: t, k => if k1 = k then some v1 else lookupKV t k

/-- Modelled from the spec: `FixMissingTypeValue`.  A missing type
declaration defaults to object for a non-reference schema that
declares properties (the spec: schemas with properties but no
explicit type are treated as objects; a node whose type set is empty
and that carries a `$ref` must instead reach reference resolution). -/
def fixMissingTypeValue (n : SchemaNode) : List String :=
  if n.typeValue = [] ∧ n.reference = "" ∧ n.properties ≠ [] then ["object"]
  else n.typeValue

/-- Embeds `getSchemaName` from generator.go; the anonymous branch
increments the counter and synthesizes `Anonymous<n>`. -/
def getSchemaName (ctx : Ctx) (keyName : String) (sid : Nat) (st : GenState) :
    String × GenState :=
  let schema := ctx.node sid
  if schema.title.length > 0 then (getGolangName schema.title ctx.conventions, st)
  else if keyName ≠ "" then (getGolangName keyName ctx.conventions, st)
  else if schema.parent.isNone then ("Root", st)
  else if schema.jsonKey ≠ "" then (getGolangName schema.jsonKey ctx.conventions, st)
  else
    match schema.parent with
    | some pid =>
      if (ctx.node pid).jsonKey ≠ "" then
        (getGolangName ((ctx.node pid).jsonKey ++ "Item") ctx.conventions, st)
      else
        ("Anonymous" ++ toString (st.anonCount + 1), { st with anonCount := st.anonCount + 1 })
    | none =>
      ("Anonymous" ++ toString (st.anonCount + 1), { st with anonCount := st.anonCount + 1 })

/-- Resolution failure: an engine error with the Go error message, or
fuel exhaustion (the embedding's stand-in for non-termination of the
unbounded Go recursion). -/
inductive RErr where
  | fuel : RErr
  | err (msg : String) : RErr
deriving DecidableEq

/-- Result of resolving one schema node: the textual type reference
plus the updated engine state.  Errors also carry the state because
the Go code mutates the engine in place, so state changes made before
a failure survive it. -/
abbrev PRes := Except (RErr × GenState) (String × GenState)

/-- One fuel level of the mutually recursive resolution entry points
of generator.go.  All recursive calls go through the previous level,
so each level is a plain (non-recursive) function record. -/
structure EngineFns where
  processSchema : Ctx → String → Nat → GenState → PRes
  processReference : Ctx → Nat → GenState → PRes
  processObject : Ctx → String → Nat → GenState → PRes
  processArray : Ctx → String → Nat → GenState → PRes

/-- Embeds the loop body of `processDefinitions` from generator.go,
parameterized by the schema-resolution callback: each definition entry
is resolved as an independent root named by its sanitized key, and the
first failure aborts the loop. -/
def processDefinitionsWith (ps : Ctx → String → Nat → GenState → PRes) (ctx : Ctx)
    (defs : List (String × Nat)) (st : GenState) : Except (RErr × GenState) GenState :=
  match defs with
  | [] => .ok st
  | (key, sid) :: rest =>
    match ps ctx (getGolangName key ctx.conventions) sid st with
    | .error e => .error e
    | .ok (_, st1) => processDefinitionsWith ps ctx rest st1

/-- Embeds the property loop of `processObject` from generator.go:
field identifier via the naming engine, recursive resolution of the
property sub-schema, required-ness by membership, recording of the
package required by a custom string format, and field registration in
insertion order. -/
def processPropertiesWith (ps : Ctx → String → Nat → GenState → PRes) (ctx : Ctx)
    (parentId : Nat) (props : List (String × Nat)) (strct : Struct) (st : GenState) :
    Except (RErr × GenState) (Struct × GenState) :=
  match props with
  | [] => .ok (strct, st)
  | (propKey, propId) :: rest =>
    let schema := ctx.node parentId
    let fieldName := getGolangName propKey ctx.conventions
    let named := getSchemaName ctx fieldName propId st
    match ps ctx named.1 propId named.2 with
    | .error e => .error e
    | .ok (fieldType, st2) =>
      let prop := ctx.node propId
      let f : Field := { Name := fieldName, JSONName := propKey, Typ := fieldType,
                         Required := contains schema.required propKey,
                         Description := prop.description, Format := prop.format }
      let strct1 :=
        if f.Typ = "string" ∧ f.Format ≠ "" then
          match formatCustomTypes.lookup f.Format with
          | some customTypeForFormat =>
            { strct with importTypes := strct.importTypes ++ [customTypeForFormat.PackageName] }
          | none => strct
        else strct
      let strct2 := if f.Required then { strct1 with GenerateCode := true } else strct1
      let strct3 := { strct2 with Fields := insertKV strct2.Fields f.Name f }
      processPropertiesWith ps ctx parentId rest strct3 st2

/-- The per-tag dispatch of the type loop in `processSchema`
(generator.go): object and array tags go to their resolvers, any other
tag to the primitive mapping. -/
def typeBranch (po pa : Ctx → String → Nat → GenState → PRes) (ctx : Ctx) (name : String)
    (sid : Nat) (schemaType : String) (st : GenState) : PRes :=
  match schemaType with
  | "object" => po ctx name sid st
  | "array" => pa ctx name sid st
  | _ =>
    match getPrimitiveTypeName schemaType "" false with
    | .error m => .error (.err m, st)
    | .ok rv => .ok (rv, st)

/-- Embeds the type loop of `processSchema` from generator.go: for a
union every tag gets the suffixed name `name_tag`, every branch is
processed, and the loop falls through to `interface\x7b\x7d`; a
single-tag declaration returns its sole branch's result directly. -/
def processTypeListWith (po pa : Ctx → String → Nat → GenState → PRes) (ctx : Ctx)
    (schemaName : String) (sid : Nat) (types : List String) (isMultiType : Bool)
    (st : GenState) : PRes :=
  match types with
  | [] => .ok ("interface\x7b\x7d", st)
  | schemaType :: rest =>
    let name := if isMultiType then schemaName ++ "_" ++ schemaType else schemaName
    match typeBranch po pa ctx name sid schemaType st with
    | .error e => .error e
    | .ok (rv, st1) =>
      if isMultiType then processTypeListWith po pa ctx schemaName sid rest isMultiType st1
      else .ok (rv, st1)

/-- The part of `processSchema` (generator.go) after the definitions
block: default the missing type tag, dispatch over the declared tags,
and fall back to reference resolution when no tag is declared. -/
def processSchemaAfterDefs (prev : EngineFns) (ctx : Ctx) (schemaName : String) (sid : Nat)
    (st : GenState) : PRes :=
  let schema := ctx.node sid
  let types := fixMissingTypeValue schema
  let isMultiType := types.length > 1
  if types.length > 0 then
    processTypeListWith prev.processObject prev.processArray ctx schemaName sid types
      isMultiType st
  else if schema.reference ≠ "" then prev.processReference ctx sid st
  else .ok ("interface\x7b\x7d", st)

/-- The tail of `processObject` (generator.go): register the finished
record under its name, then return the pointer-typed reference. -/
def finishObject (name : String) (strct : Struct) (st : GenState) : PRes :=
  let st1 := { st with Structs := insertKV st.Structs strct.Name strct }
  match getPrimitiveTypeName "object" name true with
  | .error m => .error (.err m, st1)
  | .ok t => .ok (t, st1)

/-- One step of the resolution engine: the bodies of `processSchema`,
`processReference`, `processObject` and `processArray` from
generator.go, with every recursive call routed to the previous fuel
level.  Note that `processSchema` discards the error value of the
definitions block (only fuel exhaustion, which models
non-termination, is propagated) exactly as the Go code drops the
result of `g.processDefinitions`. -/
def engineStep (prev : EngineFns) : EngineFns where
  processSchema := fun ctx schemaName sid st =>
    let schema := ctx.node sid
    match (if schema.definitions.length > 0
           then processDefinitionsWith prev.processSchema ctx schema.definitions st
           else .ok st) with
    | .error (.fuel, st1) => .error (.fuel, st1)
    | .error (.err _, st1) => processSchemaAfterDefs prev ctx schemaName sid st1
    | .ok st1 => processSchemaAfterDefs prev ctx schemaName sid st1
  processReference := fun ctx sid st =>
    let schema := ctx.node sid
    let schemaPath := ctx.paths sid
    if schema.reference = "" then
      .error (.err ("processReference empty reference: " ++ schemaPath), st)
    else
      match ctx.resolve schema.reference with
      | none =>
        .error (.err ("processReference: reference \"" ++ schema.reference
          ++ "\" not found at \"" ++ schemaPath ++ "\""), st)
      | some refId =>
        if memoGet st refId = "" then
          let named := getSchemaName ctx "" refId st
          prev.processSchema ctx named.1 refId named.2
        else .ok (memoGet st refId, st)
  processObject := fun ctx name sid st =>
    let schema := ctx.node sid
    let strct : Struct := { ID := schema.id, Name := name,
                            Description := schema.description, Fields := [] }
    let st1 := { st with memo := insertMemo st.memo sid ("*" ++ name) }
    match processPropertiesWith prev.processSchema ctx sid schema.properties strct st1 with
    | .error e => .error e
    | .ok (strct1, st2) =>
      match schema.additionalProperties with
      | .schema apId =>
        let named := getSchemaName ctx "" apId st2
        match prev.processSchema ctx named.1 apId named.2 with
        | .error e => .error e
        | .ok (subTyp, st4) =>
          let mapTyp := "map[string]" ++ subTyp
          let isDefinitionObject := schema.pathElement.startsWith "definitions"
          if schema.properties.length = 0 ∧ ¬ isDefinitionObject then .ok (mapTyp, st4)
          else
            let f : Field := { Name := "AdditionalProperties", JSONName := "-", Typ := mapTyp,
                               Required := false, Description := "", Format := "" }
            let strct2 := { strct1 with
              Fields := insertKV strct1.Fields f.Name f,
              GenerateCode := true,
              AdditionalType := subTyp }
            finishObject name strct2 st4
      | .bool b =>
        if b then
          let f : Field := { Name := "AdditionalProperties", JSONName := "-",
                             Typ := "map[string]interface\x7b\x7d", Required := false,
                             Description := "", Format := "" }
          let strct2 := { strct1 with
            Fields := insertKV strct1.Fields f.Name f,
            GenerateCode := true,
            AdditionalType := "interface\x7b\x7d" }
          finishObject name strct2 st2
        else
          finishObject name { strct1 with GenerateCode := true, AdditionalType := "false" } st2
      | .absent => finishObject name strct1 st2
  processArray := fun ctx name sid st =>
    let schema := ctx.node sid
    match schema.items with
    | some itemId =>
      let named := getSchemaName ctx (name ++ "Items") itemId st
      match prev.processSchema ctx named.1 itemId named.2 with
      | .error e => .error e
      | .ok (subTyp, st2) =>
        match getPrimitiveTypeName "array" subTyp true with
        | .error m => .error (.err m, st2)
        | .ok finalType =>
          let st3 :=
            if schema.parent.isNone then
              let array : Field := { Name := name, JSONName := "", Typ := finalType,
                                     Required := contains schema.required name,
                                     Description := schema.description,
                                     Format := schema.format }
              { st2 with Aliases := insertKV st2.Aliases array.Name array }
            else st2
          .ok (finalType, st3)
    | none => .ok ("[]interface\x7b\x7d", st)

/-- The fuel-zero engine: every entry point reports fuel exhaustion. -/
def engineZero : EngineFns where
  processSchema := fun _ _ _ st => .error (.fuel, st)
  processReference := fun _ _ st => .error (.fuel, st)
  processObject := fun _ _ _ st => .error (.fuel, st)
  processArray := fun _ _ _ st => .error (.fuel, st)

/-- The resolution engine at a given fuel level. -/
def engine : Nat → EngineFns
  | 0 => engineZero
  | n + 1 => engineStep (engine n)

/-- Embeds `processSchema` from generator.go (fuelled). -/
def processSchema (fuel : Nat) : Ctx → String → Nat → GenState → PRes :=
  (engine fuel).processSchema

/-- Embeds `processReference` from generator.go (fuelled). -/
def processReference (fuel : Nat) : Ctx → Nat → GenState → PRes :=
  (engine fuel).processReference

/-- Embeds `processObject` from generator.go (fuelled). -/
def processObject (fuel : Nat) : Ctx → String → Nat → GenState → PRes :=
  (engine fuel).processObject

/-- Embeds `processArray` from generator.go (fuelled). -/
def processArray (fuel : Nat) : Ctx → String → Nat → GenState → PRes :=
  (engine fuel).processArray

/-- Embeds `processDefinitions` from generator.go (fuelled). -/
def processDefinitions (fuel : Nat) (ctx : Ctx) (defs : List (String × Nat))
    (st : GenState) : Except (RErr × GenState) GenState :=
  processDefinitionsWith (engine fuel).processSchema ctx defs st

/-- Embeds the root loop of `CreateTypes` from generator.go: each root
schema is named and resolved, and a root whose resolved type is not
the pointer to its own record is registered as a top-level alias. -/
def createTypesLoop (fuel : Nat) (ctx : Ctx) (roots : List Nat) (st : GenState) :
    Except (RErr × GenState) GenState :=
  match roots with
  | [] => .ok st
  | sid :: rest =>
    let named := getSchemaName ctx "" sid st
    match processSchema fuel ctx named.1 sid named.2 with
    | .error e => .error e
    | .ok (rootType, st2) =>
      let a : Field := { Name := named.1, JSONName := "", Typ := rootType,
                         Required := false, Description := (ctx.node sid).description,
                         Format := (ctx.node sid).format }
      let st3 :=
        if rootType ≠ "*" ++ named.1 then
          { st2 with Aliases := insertKV st2.Aliases a.Name a }
        else st2
      createTypesLoop fuel ctx rest st3

/-- Embeds `CreateTypes` from generator.go: a fresh engine run over the
configured schema set. -/
def CreateTypes (fuel : Nat) (ctx : Ctx) (roots : List Nat) :
    Except (RErr × GenState) GenState :=
  createTypesLoop fuel ctx roots initState

/-- Embeds `getESType` from esoutput.go: scalar strings and string
slices classify as `date` (date-time format) or `keyword`, `int` as
`integer`, `bool` as `boolean`, everything else as `object`. -/
def getESType (f : Field) : String :=
  match f.Typ with
  | "string" => if f.Format = "date-time" then "date" else "keyword"
  | "[]string" => if f.Format = "date-time" then "date" else "keyword"
  | "int" => "integer"
  | "bool" => "boolean"
  | _ => "object"

/-- Embeds `printIndented` from esoutput.go (writer output modelled as
the produced string). -/
def printIndented (indent : Nat) (body : String) : String :=
  (if indent > 0 then String.mk (List.replicate indent '\t') else "") ++ body

/-- Embeds `printIndentedLn` from esoutput.go. -/
def printIndentedLn (indent : Nat) (body : String) : String :=
  printIndented indent body ++ "\n"

/-- Modelled from the spec: `getOrderedFieldNames` materializes the
record's field names in the deterministic field order used during
resolution (the preserved insertion order of the `Fields` registry). -/
def getOrderedFieldNames (fields : List (String × Field)) : List String :=
  fields.map (fun kv => kv.1)

/-- Lexicographic comparison of character lists by code point. -/
def listCharLe : List Char → List Char → Bool
  | [], _ => true
  | _ :: _, [] => false
  | a :: as, b :: bs =>
    if a.toNat < b.toNat then true
    else if a.toNat = b.toNat then listCharLe as bs
    else false

/-- Lexicographic string comparison by code point — the ascending
order used for the struct-name listing. -/
def stringLe (a b : String) : Bool := listCharLe a.data b.data

/-- Insertion of a name into an ascending list (helper for the ordered
struct-name listing modelled from the spec). -/
def insertAsc (x : String) : List String → List String
  | [] => [x]
  | y :: ys => if stringLe x y then x :: y :: ys else y :: insertAsc x ys

/-- Modelled from the spec: `getOrderedStructNames` lists the record
names of the model in ascending order. -/
def getOrderedStructNames (structs : List (String × Struct)) : List String :=
  (structs.map (fun kv => kv.1)).foldr insertAsc []

/-- The per-field body of `renderStructMapping` (esoutput.go): an
object-classified field whose stripped type names a record is either
emitted as a disabled leaf (captured additional-properties or raw
format) or inlined recursively; an object-classified field without a
record falls back to an `integer`/`keyword` primitive leaf; any other
classification is a plain typed leaf. -/
def renderFieldBody (render : Nat → Struct → List (String × Struct) → String)
    (indent : Nat) (f : Field) (structs : List (String × Struct)) : String :=
  let esType := getESType f
  let name := stringsTrim f.Typ ['[', ']', '*']
  if esType = "object" then
    match lookupKV structs name with
    | some s =>
      if s.AdditionalType ≠ "" ∨ f.Format = "raw" then
        "\x7b\n" ++ printIndentedLn (indent + 1) "\"enabled\" : false,"
          ++ printIndentedLn (indent + 1) ("\"type\": \"" ++ esType ++ "\"")
          ++ printIndented indent "\x7d"
      else render indent s structs
    | none =>
      let ftype := if name = "int64" then "integer" else "keyword"
      "\x7b\n" ++ printIndentedLn (indent + 1) ("\"type\": \"" ++ ftype ++ "\"")
        ++ printIndented indent "\x7d"
  else
    "\x7b\n" ++ printIndentedLn (indent + 1) ("\"type\": \"" ++ esType ++ "\"")
      ++ printIndented indent "\x7d"

/-- The field loop of `renderStructMapping` (esoutput.go): fields with
an internal-sentinel (`_` prefix) or not-serialized (`-`) JSON name
are skipped; a comma separates consecutive emitted fields. -/
def renderFieldLoop (render : Nat → Struct → List (String × Struct) → String)
    (indent : Nat) (s : Struct) (structs : List (String × Struct)) :
    List String → Nat → String
  | [], _ => ""
  | fieldKey :: rest, count =>
    let f := (lookupKV s.Fields fieldKey).getD default
    if f.JSONName.startsWith "_" ∨ f.JSONName = "-" then
      renderFieldLoop render indent s structs rest count
    else
      (if count ≠ 0 then ",\n" else "")
        ++ printIndented indent ("\"" ++ f.JSONName ++ "\": ")
        ++ renderFieldBody render indent f structs
        ++ renderFieldLoop render indent s structs rest (count + 1)

/-- One fuel level of `renderStructMapping` (esoutput.go): the
`properties` wrapper around the field loop.  The recursive inline call
in the Go code happens at `indent-1` right after an increment, i.e. at
the current indent. -/
def renderStep (render : Nat → Struct → List (String × Struct) → String)
    (indent : Nat) (s : Struct) (structs : List (String × Struct)) : String :=
  "\x7b\n"
    ++ printIndentedLn (indent + 1) "\"properties\": \x7b"
    ++ renderFieldLoop render (indent + 2) s structs (getOrderedFieldNames s.Fields) 0
    ++ printIndentedLn (indent + 2) ""
    ++ printIndentedLn (indent + 1) "\x7d"
    ++ printIndented indent "\x7d"

/-- Embeds `renderStructMapping` from esoutput.go (fuelled: the Go
recursion over inlined records is unbounded). -/
def renderStructMapping : Nat → Nat → Struct → List (String × Struct) → String
  | 0, _, _, _ => ""
  | fuel + 1, indent, s, structs => renderStep (renderStructMapping fuel) indent s structs

/-- Modelled from the spec: `outputNameAndDescriptionComment` emits the
name/description header line preceding each mapping constant. -/
def outputNameAndDescriptionComment (name description : String) : String :=
  "// " ++ name ++ " " ++ description ++ "\n"

/-- Modelled from the spec: `cleanPackageName` (package-header
plumbing, out of the engine's scope). -/
def cleanPackageName (pkg : String) : String := pkg

/-- The per-record loop of `ESOutput` (esoutput.go): records in
ascending name order, each as a mapping constant wrapping the rendered
document. -/
def esLoop (fuel : Nat) (structs : List (String × Struct)) : List String → String
  | [] => ""
  | k :: rest =>
    let s := (lookupKV structs k).getD default
    "\n" ++ outputNameAndDescriptionComment s.Name s.Description
      ++ "Mapping" ++ s.Name ++ " = `"
      ++ renderStructMapping fuel 0 s structs
      ++ "`\n" ++ "\n" ++ esLoop fuel structs rest

/-- Embeds `ESOutput` from esoutput.go: header, package clause, and the
const block of rendered mapping documents. -/
def ESOutput (fuel : Nat) (st : GenState) (pkg : String) : String :=
  "// Code generated by @elastic/go-json-schema-generate schema-generate quick&dirty mod for ES mappings. DO NOT EDIT.\n"
    ++ "\n"
    ++ "package " ++ cleanPackageName pkg ++ "\n\n"
    ++ "const (\n"
    ++ esLoop fuel st.Structs (getOrderedStructNames st.Structs)
    ++ ")\n"

/-- A full run: fresh engine resolution of the schema set followed by
mapping rendering. -/
def resolveAndRender (fuel : Nat) (ctx : Ctx) (roots : List Nat) (pkg : String) :
    Except (RErr × GenState) (GenState × String) :=
  match CreateTypes fuel ctx roots with
  | .error e => .error e
  | .ok st => .ok (st, ESOutput fuel st pkg)

/-! Helper lemmas about the fragment splitter. -/

/-- On a delimiter-free suffix the splitter just extends the buffer and
flushes it at the end (nothing is flushed for an empty result). -/
theorem splitOnAllAux_noDelim (p : Char → Bool) (l : List Char) (buf : List Char)
    (h : ∀ c ∈ l, p c = false) :
    splitOnAllAux p l buf = if (buf ++ l).length > 0 then [buf ++ l] else [] := by
  induction l generalizing buf with
  | nil => simp [splitOnAllAux]
  | cons c cs ih =>
    have hc : p c = false := h c (List.mem_cons_self c cs)
    rw [splitOnAllAux, hc]
    simp only [Bool.false_eq_true, if_false]
    rw [ih (buf ++ [c]) (fun d hd => h d (List.mem_cons_of_mem c hd))]
    simp [List.append_assoc]

/-- A non-empty buffer always heads the first emitted fragment. -/
theorem splitOnAllAux_first (p : Char → Bool) (l : List Char) (buf : List Char)
    (hb : buf ≠ []) :
    ∃ ext frags, splitOnAllAux p l buf = (buf ++ ext) :: frags := by
  induction l generalizing buf with
  | nil =>
    refine ⟨[], [], ?_⟩
    have : buf.length > 0 := List.length_pos.mpr hb
    simp [splitOnAllAux, this]
  | cons c cs ih =>
    by_cases hc : p c
    · exact ⟨[], splitOnAllAux p cs [], by simp [splitOnAllAux, hc]⟩
    · obtain ⟨ext, frags, hx⟩ := ih (buf ++ [c]) (by simp)
      refine ⟨[c] ++ ext, frags, ?_⟩
      rw [splitOnAllAux]
      simp only [hc, Bool.false_eq_true, if_false]
      rw [hx, List.append_assoc]

/-- Left fold of string append over a split-off prefix. -/
theorem stringFoldl_append (l : List String) (a b : String) :
    l.foldl (fun r s => r ++ s) (a ++ b) = a ++ l.foldl (fun r s => r ++ s) b := by
  induction l generalizing b with
  | nil => simp
  | cons s t ih => simp only [List.foldl_cons, String.append_assoc, ih]

/-- String.join distributes over cons. -/
theorem stringJoin_cons (a : String) (l : List String) :
    String.join (a :: l) = a ++ String.join l := by
  simp only [String.join, List.foldl_cons]
  rw [show ("" ++ a) = a ++ "" by rw [String.empty_append, String.append_empty],
    stringFoldl_append]

/-- C8 counterexample: on the input `"-1a"` with an empty convention
table, the splitter emits an empty leading fragment, so the digit
check on fragment 0 does not fire and the generated identifier is
`"1a"`, which starts with a digit — refuting both the no-empty-
fragments part and the never-starts-with-a-digit part of the claim. -/
theorem c8_counterexample :
    getGolangName "-1a" [] = "1a"
    ∧ splitOnAll "-1a".data isNotAGoNameCharacter = [[], ['1', 'a']]
    ∧ ('1').isDigit = true := by
  refine ⟨rfl, rfl, rfl⟩

/-- C8 (amended): identifier sanitization splits on every character
that is not a letter or digit, capitalizes each fragment and applies
the exact-match convention table; a trailing delimiter run produces no
fragment, but a leading (or consecutive) delimiter flushes an empty
fragment; the underscore prefix fires only when the fragment at index
0 begins with a digit, so an identifier can only be guaranteed not to
start with a digit when the raw string itself starts with a letter or
digit: a raw string starting with a digit yields an underscore-
prefixed identifier, a delimiter-free raw string forms one single
fragment, and a leading delimiter contributes an empty fragment. -/
theorem c8_amended :
    (∀ (c : Char) (rest : List Char) (convs : List (String × String)), c.isDigit = true →
      ∃ tl, (getGolangName (String.mk (c :: rest)) convs).data = '_' :: tl)
    ∧ (∀ (c : Char) (rest : List Char), isNotAGoNameCharacter c = true →
      splitOnAll (c :: rest) isNotAGoNameCharacter = [] :: splitOnAll rest isNotAGoNameCharacter)
    ∧ (∀ (l : List Char), (∀ c ∈ l, isNotAGoNameCharacter c = false) → l ≠ [] →
      splitOnAll l isNotAGoNameCharacter = [l]) := by
  refine ⟨?_, ?_, ?_⟩
  · intro c rest convs hc
    have hnd : isNotAGoNameCharacter c = false := by
      simp [isNotAGoNameCharacter, isLetterCh, isDigitCh, hc]
    obtain ⟨ext, frags, hsplit⟩ :=
      splitOnAllAux_first isNotAGoNameCharacter rest [c] (by simp)
    have hs : splitOnAll (String.mk (c :: rest)).data isNotAGoNameCharacter
        = (c :: ext) :: frags := by
      show splitOnAllAux isNotAGoNameCharacter (c :: rest) [] = _
      rw [splitOnAllAux]
      simp only [hnd, Bool.false_eq_true, if_false, List.nil_append]
      rw [show ([c] : List Char) ++ ext = c :: ext from rfl] at hsplit
      exact hsplit
    rw [getGolangName, hs, List.enum_cons', List.map_cons, stringJoin_cons]
    have hbd : beginsWithDigit (c :: ext) = true := hc
    simp only [hbd, Nat.zero_eq, and_true, if_pos (And.intro rfl rfl)]
    exact ⟨(applyConventions (String.mk (capitaliseFirstLetter (c :: ext))) convs).data
      ++ (String.join (((frags.enum.map fun p => (p.1 + 1, p.2))).map fun p =>
        (if p.1 = 0 ∧ beginsWithDigit p.2 then "_" else "")
          ++ applyConventions (String.mk (capitaliseFirstLetter p.2)) convs)).data, rfl⟩
  · intro c rest h
    show splitOnAllAux isNotAGoNameCharacter (c :: rest) [] = _
    rw [splitOnAllAux, h]
    simp [splitOnAll]
  · intro l h hne
    show splitOnAllAux isNotAGoNameCharacter l [] = [l]
    rw [splitOnAllAux_noDelim isNotAGoNameCharacter l [] h]
    simp [List.length_pos.mpr hne]

/-- C8 witness: the amended statement instantiated at `"1a"`, at the
delimiter `-`, and at the delimiter-free fragment `ab`. -/
theorem c8_amended_witness :
    (∃ tl, (getGolangName (String.mk ['1', 'a']) []).data = '_' :: tl)
    ∧ splitOnAll ['-', 'a'] isNotAGoNameCharacter
        = [] :: splitOnAll ['a'] isNotAGoNameCharacter
    ∧ splitOnAll ['a', 'b'] isNotAGoNameCharacter = [['a', 'b']] :=
  ⟨c8_amended.1 '1' ['a'] [] rfl,
   c8_amended.2.1 '-' ['a'] rfl,
   c8_amended.2.2 ['a', 'b'] (by decide) (by decide)⟩

/-! Concrete schema arenas used by the claim witnesses. -/

/-- The array root of `{"type":"array","items":{"type":"integer"}}`. -/
def nodeC7root : SchemaNode := { typeValue := ["array"], items := some 1 }

/-- The integer items node of the array example. -/
def nodeC7item : SchemaNode := { typeValue := ["integer"], parent := some 0 }

/-- Arena for the array-of-integers example. -/
def ctxC7 : Ctx :=
  { nodes := [nodeC7root, nodeC7item], resolve := fun _ => none,
    paths := fun _ => "#", conventions := [] }

/-- C7: for every array node with an items sub-schema, once the item
type has been resolved, the composed element type is the item type
with any pointer annotation trimmed away and with the 32-bit integer
primitive `int` widened to `int64`; the scalar integer primitive
itself maps to `int`.  So `{"type":"array","items":{"type":"integer"}}`
composes `[]int64` while a scalar integer field stays `int`. -/
theorem c7_array_widening (fuel : Nat) (ctx : Ctx) (name : String) (sid itemId : Nat)
    (st st1 st2 : GenState) (subName subTyp : String)
    (hit : (ctx.node sid).items = some itemId)
    (hn : getSchemaName ctx (name ++ "Items") itemId st = (subName, st1))
    (hsub : processSchema fuel ctx subName itemId st1 = .ok (subTyp, st2))
    (hne : subTyp ≠ "") :
    (∃ stf, processArray (fuel + 1) ctx name sid st =
      .ok ("[]" ++ stringsTrim (if subTyp = "int" then "int64" else subTyp) ['*'], stf))
    ∧ getPrimitiveTypeName "integer" "" false = .ok "int" := by
  constructor
  · simp only [processArray, engine, engineStep, hit, hn, processSchema] at *
    rw [hsub]
    simp only [getPrimitiveTypeName, if_neg hne]
    exact ⟨_, rfl⟩
  · rfl

/-- C7 witness: the array-of-integers arena composes `[]int64`. -/
theorem c7_witness :
    (∃ stf, processArray 5 ctxC7 "Root" 0 initState = .ok ("[]int64", stf))
    ∧ getPrimitiveTypeName "integer" "" false = .ok "int" :=
  c7_array_widening 4 ctxC7 "Root" 0 1 initState initState initState "RootItems" "int"
    rfl rfl rfl (by decide)

/-- The object root of
`{"type":"object","additionalProperties":{"type":"string"}}`. -/
def nodeC3root : SchemaNode := { typeValue := ["object"], additionalProperties := .schema 1 }

/-- The string-typed additional-properties sub-schema of the collapse
example. -/
def nodeC3ap : SchemaNode := { typeValue := ["string"], parent := some 0, jsonKey := "k" }

/-- Arena for the additional-properties collapse example. -/
def ctxC3 : Ctx :=
  { nodes := [nodeC3root, nodeC3ap], resolve := fun _ => none,
    paths := fun _ => "#", conventions := [] }

/-- The engine state after the collapse run: only the memo of the
collapsed node was written; no record was registered. -/
def stM : GenState := { Structs := [], Aliases := [], anonCount := 0, memo := [(0, "*Root")] }

/-- C3: an object node with zero declared properties, a typed
additional-properties sub-schema and a structural path not under
`definitions` resolves to the bare map type over the resolved
sub-type, and the final state is exactly the state left by resolving
the sub-schema — the node itself registers no record in the Structs
registry. -/
theorem c3_collapse (fuel : Nat) (ctx : Ctx) (name : String) (sid apId : Nat)
    (st st3 stAfter : GenState) (apName subTyp : String)
    (hprops : (ctx.node sid).properties = [])
    (hap : (ctx.node sid).additionalProperties = .schema apId)
    (hpath : (ctx.node sid).pathElement.startsWith "definitions" = false)
    (hn : getSchemaName ctx "" apId
      { st with memo := insertMemo st.memo sid ("*" ++ name) } = (apName, st3))
    (hsub : processSchema fuel ctx apName apId st3 = .ok (subTyp, stAfter)) :
    processObject (fuel + 1) ctx name sid st = .ok ("map[string]" ++ subTyp, stAfter) := by
  simp only [processObject, engine, engineStep, processSchema] at *
  rw [hprops, hap]
  simp only [processPropertiesWith, hn]
  rw [hsub]
  simp [hpath]

/-- C3 witness: the claim's literal example resolves to
`map[string]string` and the Structs registry stays empty. -/
theorem c3_witness :
    processObject 4 ctxC3 "Root" 0 initState = .ok ("map[string]string", stM)
    ∧ stM.Structs = [] :=
  ⟨c3_collapse 3 ctxC3 "Root" 0 1 initState stM stM "K" "string" rfl rfl rfl rfl rfl, rfl⟩

/-- The collapse-example object root used by the memo counterexample. -/
def nodeC4root : SchemaNode := { typeValue := ["object"], additionalProperties := .schema 1 }

/-- The string-typed additional-properties sub-schema of the memo
counterexample. -/
def nodeC4ap : SchemaNode := { typeValue := ["string"], parent := some 0, jsonKey := "k" }

/-- Arena for the memo counterexample. -/
def ctxC4 : Ctx :=
  { nodes := [nodeC4root, nodeC4ap], resolve := fun _ => none,
    paths := fun _ => "#", conventions := [] }

/-- Final state of the memo counterexample run. -/
def stM4 : GenState := { Structs := [], Aliases := [], anonCount := 0, memo := [(0, "*Foo")] }

/-- C4 counterexample: resolving the collapsed object
`{"type":"object","additionalProperties":{"type":"string"}}` under the
name `Foo` sets the node's memo to `*Foo` but returns the type
`map[string]string`, so the memo does not equal the textual type
reference that resolving the node returns. -/
theorem c4_counterexample :
    processObject 4 ctxC4 "Foo" 0 initState = .ok ("map[string]string", stM4)
    ∧ memoGet stM4 0 = "*Foo"
    ∧ "*Foo" ≠ "map[string]string" := by
  refine ⟨rfl, rfl, by decide⟩

/-- C4 (amended): once a node's GeneratedType memo is set, reference
resolution short-circuits on it: `processReference` returns the memo
value and leaves the engine state unchanged, so two different `$ref`
strings resolving to the same memoized node are not re-processed and
both yield the same generated type name.  (For a collapsed
additional-properties object the memo, a pointer-to-record reference,
differs from the map type its resolution returns, so the memo does not
in general equal the resolution result.) -/
theorem c4_amended (fuel1 fuel2 : Nat) (ctx : Ctx) (sid1 sid2 refId : Nat) (st : GenState)
    (h1 : (ctx.node sid1).reference ≠ "")
    (h2 : ctx.resolve (ctx.node sid1).reference = some refId)
    (h3 : (ctx.node sid2).reference ≠ "")
    (h4 : ctx.resolve (ctx.node sid2).reference = some refId)
    (h5 : memoGet st refId ≠ "") :
    processReference (fuel1 + 1) ctx sid1 st = .ok (memoGet st refId, st)
    ∧ processReference (fuel2 + 1) ctx sid2 st = .ok (memoGet st refId, st) := by
  constructor
  · simp only [processReference, engine, engineStep]
    rw [if_neg h1, h2]
    simp only [if_neg h5]
  · simp only [processReference, engine, engineStep]
    rw [if_neg h3, h4]
    simp only [if_neg h5]

/-- Two reference nodes pointing at the same memoized definition. -/
def nodeC4ref1 : SchemaNode := { reference := "#/definitions/B" }

/-- The shared reference target. -/
def nodeC4target : SchemaNode := { title := "B", parent := some 0 }

/-- The second reference node, with a different reference string. -/
def nodeC4ref2 : SchemaNode := { reference := "#/definitions/B2" }

/-- Arena with two distinct `$ref` strings resolving to one node. -/
def ctxC4w : Ctx :=
  { nodes := [nodeC4ref1, nodeC4target, nodeC4ref2],
    resolve := fun r =>
      if r = "#/definitions/B" ∨ r = "#/definitions/B2" then some 1 else none,
    paths := fun _ => "#", conventions := [] }

/-- State in which the shared target is already memoized. -/
def stW4 : GenState := { Structs := [], Aliases := [], anonCount := 0, memo := [(1, "*B")] }

/-- C4 witness: both `$ref` strings yield the memo value `*B` with the
state untouched. -/
theorem c4_amended_witness :
    processReference 5 ctxC4w 0 stW4 = .ok (memoGet stW4 1, stW4)
    ∧ processReference 5 ctxC4w 2 stW4 = .ok (memoGet stW4 1, stW4) :=
  c4_amended 4 4 ctxC4w 0 2 1 stW4 (by decide) (by decide) (by decide) (by decide) (by decide)

/-- On the multi-type path, a successful type loop always falls
through to the dynamic type, whatever the branches did. -/
theorem processTypeListWith_multi (po pa : Ctx → String → Nat → GenState → PRes) (ctx : Ctx)
    (n : String) (sid : Nat) :
    ∀ (types : List String) (st : GenState) (rv : String) (st2 : GenState),
      processTypeListWith po pa ctx n sid types true st = .ok (rv, st2) →
      rv = "interface\x7b\x7d" := by
  intro types
  induction types with
  | nil =>
    intro st rv st2 h
    simp only [processTypeListWith, Except.ok.injEq, Prod.mk.injEq] at h
    exact h.1.symm
  | cons t rest ih =>
    intro st rv st2 h
    rw [processTypeListWith] at h
    rcases hb : typeBranch po pa ctx (if true then n ++ "_" ++ t else n) sid t st with e | p
    · rw [hb] at h
      exact absurd h (by simp)
    · rw [hb] at h
      simp only [if_true] at h
      exact ih p.2 rv st2 h

/-- Arena with the union declaration `{"type":["string","integer"]}`. -/
def ctxC5 : Ctx :=
  { nodes := [{ typeValue := ["string", "integer"] }], resolve := fun _ => none,
    paths := fun _ => "#", conventions := [] }

/-- C5 counterexample: resolving `{"type":["string","integer"]}` under
the name `Foo` returns the dynamic type and leaves the engine state
completely unchanged — in particular no `Foo_string` or `Foo_integer`
record or alias is registered in the model, refuting the claim that
all variant types are registered as a side effect. -/
theorem c5_counterexample :
    processSchema 5 ctxC5 "Foo" 0 initState = .ok ("interface\x7b\x7d", initState)
    ∧ initState.Structs.lookup "Foo_string" = none
    ∧ initState.Aliases.lookup "Foo_string" = none
    ∧ initState.Structs.lookup "Foo_integer" = none
    ∧ initState.Aliases.lookup "Foo_integer" = none := by
  refine ⟨rfl, rfl, rfl, rfl, rfl⟩

/-- C5 (amended): for a node declaring more than one type tag, every
branch is processed in turn with the per-tag suffixed name
`name_tag`, and the type returned to the caller is the generic
dynamic type `interface\x7b\x7d`; a single-tag declaration returns
its sole branch's result directly.  Object (and array) branches
register their records/aliases in the model as a side effect of being
processed, but a branch for a primitive tag registers nothing, so a
union of primitive tags leaves the model unchanged. -/
theorem c5_amended (fuel : Nat) (ctx : Ctx) (schemaName : String) (sid : Nat) :
    (∀ (st : GenState) (ts : List String) (rv : String) (st2 : GenState),
      (ctx.node sid).definitions = [] →
      fixMissingTypeValue (ctx.node sid) = ts → 1 < ts.length →
      processSchema (fuel + 1) ctx schemaName sid st = .ok (rv, st2) →
      rv = "interface\x7b\x7d")
    ∧ (∀ (po pa : Ctx → String → Nat → GenState → PRes) (t : String) (rest : List String)
        (st : GenState),
      processTypeListWith po pa ctx schemaName sid (t :: rest) true st =
        match typeBranch po pa ctx (schemaName ++ "_" ++ t) sid t st with
        | .error e => .error e
        | .ok p => processTypeListWith po pa ctx schemaName sid rest true p.2)
    ∧ (∀ (po pa : Ctx → String → Nat → GenState → PRes) (t : String) (st : GenState),
      processTypeListWith po pa ctx schemaName sid [t] false st =
        typeBranch po pa ctx schemaName sid t st) := by
  refine ⟨?_, ?_, ?_⟩
  · intro st ts rv st2 hdefs hts hmt h
    rw [processSchema] at h
    simp only [engine, engineStep, hdefs] at h
    simp only [List.length_nil, gt_iff_lt, Nat.lt_irrefl, if_false] at h
    rw [processSchemaAfterDefs] at h
    simp only [hts] at h
    rw [if_pos (Nat.lt_trans Nat.zero_lt_one hmt)] at h
    exact processTypeListWith_multi _ _ ctx schemaName sid ts st rv st2
      (by rw [show decide (ts.length > 1) = true from decide_eq_true hmt] at h; exact h)
  · intro po pa t rest st
    rw [processTypeListWith]
    rcases hb : typeBranch po pa ctx (if true then schemaName ++ "_" ++ t else schemaName)
        sid t st with e | p
    · rw [show typeBranch po pa ctx (schemaName ++ "_" ++ t) sid t st = .error e from hb]
    · rw [show typeBranch po pa ctx (schemaName ++ "_" ++ t) sid t st = .ok p from hb]
      rcases p with ⟨rv, st1⟩
      rfl
  · intro po pa t st
    rw [processTypeListWith]
    rcases hb : typeBranch po pa ctx (if false then schemaName ++ "_" ++ t else schemaName)
        sid t st with e | p
    · rw [show typeBranch po pa ctx schemaName sid t st = .error e from hb]
    · rw [show typeBranch po pa ctx schemaName sid t st = .ok p from hb]
      rcases p with ⟨rv, st1⟩
      rfl

/-- Arena with the union declaration `{"type":["object","string"]}`
and one property, so that the object branch has a visible side
effect. -/
def ctxC5m : Ctx :=
  { nodes := [{ typeValue := ["object", "string"], properties := [("a", 1)] },
              { typeValue := ["string"], parent := some 0, jsonKey := "a" }],
    resolve := fun _ => none, paths := fun _ => "#", conventions := [] }

/-- The field of the registered union variant record. -/
def fldC5a : Field :=
  { Name := "A", JSONName := "a", Typ := "string", Required := false,
    Description := "", Format := "" }

/-- The union variant record registered by the object branch. -/
def strctC5 : Struct :=
  { ID := "", Name := "Foo_object", Description := "",
    Fields := [("A", fldC5a)] }

/-- Final state of the union run: the suffixed variant record
`Foo_object` is registered even though the result is dynamic. -/
def stC5m : GenState :=
  { Structs := [("Foo_object", strctC5)], Aliases := [], anonCount := 0,
    memo := [(0, "*Foo_object")] }

/-- C5 witness: the union `{"type":["object","string"]}` named `Foo`
resolves to the dynamic type while registering `Foo_object`. -/
theorem c5_amended_witness :
    processSchema 5 ctxC5m "Foo" 0 initState = .ok ("interface\x7b\x7d", stC5m)
    ∧ "interface\x7b\x7d" = "interface\x7b\x7d" :=
  ⟨rfl, (c5_amended 4 ctxC5m "Foo" 0).1 initState ["object", "string"] "interface\x7b\x7d"
    stC5m rfl rfl (by decide) rfl⟩

/-- Arena whose root object carries a definitions block with a broken
reference: `definitions.bad` is `{"$ref":"#/missing"}` and the
resolver knows no reference at all. -/
def ctxC2 : Ctx :=
  { nodes := [{ typeValue := ["object"], definitions := [("bad", 1)] },
              { reference := "#/missing", parent := some 0, jsonKey := "bad" }],
    resolve := fun _ => none, paths := fun _ => "#", conventions := [] }

/-- The state the C2 run ends in: the root record was registered as if
nothing were wrong. -/
def stC2 : GenState :=
  { Structs := [("Root",
      { ID := "", Name := "Root", Description := "", Fields := [] })],
    Aliases := [], anonCount := 0, memo := [(0, "*Root")] }

/-- C2: resolving the definitions block alone fails with the broken-
reference error, yet the top-level entry point `CreateTypes` returns
success on the same schema set — `processSchema` drops the error value
of `g.processDefinitions`, so a resolution failure inside a
definitions block is swallowed instead of aborting the run. -/
theorem c2_definitions_error_swallowed :
    processDefinitions 7 ctxC2 [("bad", 1)] initState =
      .error (.err "processReference: reference \"#/missing\" not found at \"#\"", initState)
    ∧ CreateTypes 8 ctxC2 [0] = .ok stC2 := by
  refine ⟨rfl, rfl⟩

/-! Literal-fuel unfolding lemmas for the engine. -/

/-- Engine unfolding at fuel 1. -/
theorem engine1 : engine 1 = engineStep engineZero := rfl

/-- Engine unfolding at fuel 2. -/
theorem engine2 : engine 2 = engineStep (engine 1) := rfl

/-- A key outside the key list is not found. -/
theorem lookupKV_eq_none {β : Type} (l : List (String × β)) (k : String)
    (h : k ∉ l.map Prod.fst) : lookupKV l k = none := by
  induction l with
  | nil => rfl
  | cons kv t ih =>
    rcases kv with ⟨k1, v1⟩
    rw [List.map_cons] at h
    simp only [List.mem_cons, not_or] at h
    rw [show lookupKV ((k1, v1) :: t) k = if k1 = k then some v1 else lookupKV t k from rfl]
    rw [if_neg (fun he => h.1 he.symm)]
    exact ih h.2

/-- A key of the key list is found. -/
theorem lookupKV_mem {β : Type} (l : List (String × β)) (k : String)
    (h : k ∈ l.map Prod.fst) : ∃ v, lookupKV l k = some v := by
  induction l with
  | nil => simp at h
  | cons kv t ih =>
    rcases kv with ⟨k1, v1⟩
    rw [show lookupKV ((k1, v1) :: t) k = if k1 = k then some v1 else lookupKV t k from rfl]
    by_cases hk : k1 = k
    · exact ⟨v1, if_pos hk⟩
    · rw [if_neg hk]
      apply ih
      rw [List.map_cons] at h
      rcases List.mem_cons.mp h with he | hm
      · exact absurd he.symm hk
      · exact hm

/-- Looking up in a value-filtered association list (with duplicate-
free keys) is looking up, then filtering the value. -/
theorem lookupKV_filter {β : Type} (l : List (String × β)) (p : β → Bool) (k : String)
    (h : (l.map Prod.fst).Nodup) :
    lookupKV (l.filter (fun kv => p kv.2)) k = (lookupKV l k).filter p := by
  induction l with
  | nil => rfl
  | cons kv t ih =>
    rcases kv with ⟨k1, v1⟩
    rw [List.map_cons, List.nodup_cons] at h
    by_cases hk : k1 = k
    · subst hk
      by_cases hp : p v1
      · simp [lookupKV, List.filter_cons, hp, Option.filter]
      · simp only [List.filter_cons, hp, Bool.false_eq_true, if_false]
        rw [lookupKV_eq_none (t.filter fun kv => p kv.2) k1
          (fun hmem => h.1 (List.map_subset Prod.fst (List.filter_subset' t) hmem))]
        simp [lookupKV, hp, Option.filter]
    · by_cases hp : p v1
      · simp [lookupKV, List.filter_cons, hp, hk, ih h.2]
      · simp only [List.filter_cons, hp, Bool.false_eq_true, if_false]
        simp [lookupKV, hk, ih h.2]

/-- The key-level view of a value filter: a key passes when its value
does (an absent key passes vacuously). -/
def keptKey {β : Type} (p : β → Bool) (l : List (String × β)) (k : String) : Bool :=
  match lookupKV l k with
  | some v => p v
  | none => true

/-- Filtering the entries of an association list keeps exactly the
keys whose value passes the test (duplicate-free keys). -/
theorem mapFst_filter {β : Type} (l : List (String × β)) (p : β → Bool)
    (h : (l.map Prod.fst).Nodup) :
    (l.filter (fun kv => p kv.2)).map Prod.fst =
      (l.map Prod.fst).filter (keptKey p l) := by
  induction l with
  | nil => rfl
  | cons kv t ih =>
    rcases kv with ⟨k1, v1⟩
    rw [List.map_cons, List.nodup_cons] at h
    have htail : (t.map Prod.fst).filter (keptKey p ((k1, v1) :: t)) =
        (t.map Prod.fst).filter (keptKey p t) := by
      apply List.filter_congr
      intro k hk
      have hlk : lookupKV ((k1, v1) :: t) k = lookupKV t k := by
        rw [show lookupKV ((k1, v1) :: t) k
          = if k1 = k then some v1 else lookupKV t k from rfl]
        rw [if_neg (fun he => h.1 (by rw [he]; exact hk))]
      rw [keptKey, keptKey, hlk]
    have hl : keptKey p ((k1, v1) :: t) k1 = p v1 := by
      rw [keptKey, show lookupKV ((k1, v1) :: t) k1
        = if k1 = k1 then some v1 else lookupKV t k1 from rfl, if_pos rfl]
    rw [List.map_cons, List.filter_cons, List.filter_cons]
    by_cases hp : p v1
    · simp only [hp, hl, if_true, List.map_cons]
      rw [htail, ih h.2]
    · simp only [hp, hl, Bool.false_eq_true, if_false]
      rw [htail, ih h.2]

/-- The renderer's keep test: a field is emitted unless its JSON name
starts with the internal sentinel `_` or equals the not-serialized
sentinel `-`. -/
def keepFieldB (f : Field) : Bool := !(f.JSONName.startsWith "_" ∨ f.JSONName = "-")

/-- The record with every sentinel-named field removed. -/
def filterSentinelFields (s : Struct) : Struct :=
  { s with Fields := s.Fields.filter (fun kv => keepFieldB kv.2) }

/-- The field loop ignores sentinel-named fields: walking the full
name list over the record equals walking the filtered name list over
the sentinel-stripped record (duplicate-free field names). -/
theorem renderFieldLoop_filter (render : Nat → Struct → List (String × Struct) → String)
    (indent : Nat) (s : Struct) (structs : List (String × Struct))
    (hnd : (s.Fields.map Prod.fst).Nodup) :
    ∀ (names : List String) (count : Nat), (∀ k ∈ names, k ∈ s.Fields.map Prod.fst) →
      renderFieldLoop render indent s structs names count =
        renderFieldLoop render indent (filterSentinelFields s) structs
          (names.filter (keptKey keepFieldB s.Fields)) count := by
  intro names
  induction names with
  | nil =>
    intro count hmem
    rfl
  | cons k rest ih =>
    intro count hmem
    obtain ⟨f, hf⟩ := lookupKV_mem s.Fields k (hmem k (List.mem_cons_self k rest))
    have hmem2 : ∀ k2 ∈ rest, k2 ∈ s.Fields.map Prod.fst :=
      fun k2 hk2 => hmem k2 (List.mem_cons_of_mem k hk2)
    have hlf := lookupKV_filter s.Fields keepFieldB k hnd
    rw [hf] at hlf
    have hkk : keptKey keepFieldB s.Fields k = keepFieldB f := by
      rw [keptKey, hf]
    rw [List.filter_cons]
    by_cases hc : f.JSONName.startsWith "_" ∨ f.JSONName = "-"
    · have hkeep : keepFieldB f = false := by simp [keepFieldB, hc]
      simp only [hkk, hkeep, Bool.false_eq_true, if_false]
      rw [renderFieldLoop]
      simp only [hf, Option.getD_some]
      rw [if_pos hc]
      exact ih count hmem2
    · have hkeep : keepFieldB f = true := by simp [keepFieldB, hc]
      simp only [hkk, hkeep, if_true]
      rw [renderFieldLoop, renderFieldLoop]
      have hlf2 : lookupKV (filterSentinelFields s).Fields k = some f := by
        rw [show (filterSentinelFields s).Fields
          = s.Fields.filter (fun kv => keepFieldB kv.2) from rfl]
        rw [hlf]
        simp [Option.filter, hkeep]
      simp only [hf, hlf2, Option.getD_some]
      rw [if_neg hc, if_neg hc]
      rw [ih (count + 1) hmem2]

/-- C9: rendering a record's mapping document is unchanged when every
field whose JSON name is `-` or starts with `_` is removed first —
such fields are skipped and never appear in the rendered document
(field names duplicate-free, as the engine guarantees). -/
theorem c9_sentinel_fields_skipped (fuel indent : Nat) (s : Struct)
    (structs : List (String × Struct)) (hnd : (s.Fields.map Prod.fst).Nodup) :
    renderStructMapping fuel indent s structs =
      renderStructMapping fuel indent (filterSentinelFields s) structs := by
  cases fuel with
  | zero => rfl
  | succ fuel =>
    rw [renderStructMapping, renderStructMapping, renderStep, renderStep]
    have hnames : getOrderedFieldNames (filterSentinelFields s).Fields =
        (getOrderedFieldNames s.Fields).filter (keptKey keepFieldB s.Fields) := by
      rw [getOrderedFieldNames, getOrderedFieldNames]
      exact mapFst_filter s.Fields keepFieldB hnd
    rw [hnames]
    rw [renderFieldLoop_filter (renderStructMapping fuel) (indent + 2) s structs hnd
      (getOrderedFieldNames s.Fields) 0 (fun k hk => hk)]

/-- A regular keyword field. -/
def fldWit1 : Field :=
  { Name := "F1", JSONName := "f1", Typ := "string", Required := false,
    Description := "", Format := "" }

/-- A not-serialized (`-`) field. -/
def fldWitAP : Field :=
  { Name := "AdditionalProperties", JSONName := "-", Typ := "map[string]string",
    Required := false, Description := "", Format := "" }

/-- An internal (`_`-prefixed) field. -/
def fldWit2 : Field :=
  { Name := "F2", JSONName := "_internal", Typ := "string", Required := false,
    Description := "", Format := "" }

/-- A record holding a regular field, a not-serialized (`-`) field and
an internal (`_`-prefixed) field. -/
def sWit : Struct :=
  { ID := "", Name := "W", Description := "",
    Fields := [("F1", fldWit1), ("AdditionalProperties", fldWitAP), ("F2", fldWit2)] }

/-- C9 witness: the sentinel-skip equivalence at a concrete record. -/
theorem c9_witness :
    renderStructMapping 2 0 sWit [] = renderStructMapping 2 0 (filterSentinelFields sWit) [] :=
  c9_sentinel_fields_skipped 2 0 sWit [] (by decide)

/-- C10: a field whose type is the string slice `[]string` is
classified exactly like a scalar string field — `date` when its format
is `date-time`, otherwise `keyword` — never as `object`, and its
rendered field body is always the plain typed leaf, independent of the
record registry and of the recursive renderer (so it never triggers
record inlining or the non-record fallback). -/
theorem c10_string_slice (f : Field) (h : f.Typ = "[]string") :
    getESType f = (if f.Format = "date-time" then "date" else "keyword")
    ∧ getESType f = getESType { f with Typ := "string" }
    ∧ getESType f ≠ "object"
    ∧ ∀ (render : Nat → Struct → List (String × Struct) → String) (indent : Nat)
        (structs : List (String × Struct)),
      renderFieldBody render indent f structs =
        "\x7b\n" ++ printIndentedLn (indent + 1) ("\"type\": \"" ++ getESType f ++ "\"")
          ++ printIndented indent "\x7d" := by
  have hes : getESType f = if f.Format = "date-time" then "date" else "keyword" := by
    rw [getESType, h]
    rfl
  refine ⟨hes, ?_, ?_, ?_⟩
  · rw [hes]
    rfl
  · rw [hes]
    by_cases hfmt : f.Format = "date-time" <;> simp [hfmt]
  · intro render indent structs
    rw [renderFieldBody]
    simp only [hes]
    by_cases hfmt : f.Format = "date-time" <;> simp [hfmt]

/-- A concrete `[]string` field with the date-time format. -/
def fldC10 : Field :=
  { Name := "F", JSONName := "f", Typ := "[]string", Required := false,
    Description := "", Format := "date-time" }

/-- C10 witness: the string-slice classification at a concrete field. -/
theorem c10_witness :
    getESType fldC10 = (if fldC10.Format = "date-time" then "date" else "keyword")
    ∧ getESType fldC10 = getESType { fldC10 with Typ := "string" }
    ∧ getESType fldC10 ≠ "object"
    ∧ ∀ (render : Nat → Struct → List (String × Struct) → String) (indent : Nat)
        (structs : List (String × Struct)),
      renderFieldBody render indent fldC10 structs =
        "\x7b\n" ++ printIndentedLn (indent + 1) ("\"type\": \"" ++ getESType fldC10 ++ "\"")
          ++ printIndented indent "\x7d" :=
  c10_string_slice fldC10 rfl

/-- Arena for the memo-persistence counterexample: the root's property
`p` is a `$ref` whose target (node 2) is reachable only through the
reference, is untitled and unkeyed, and so is named anonymously on
first resolution.  Node 3 exists only as the target's parent (with an
empty key, so the anonymous branch fires). -/
def ctxC1x : Ctx :=
  { nodes := [
      { typeValue := ["object"], properties := [("p", 1)] },
      { reference := "#/defs/X", parent := some 0, jsonKey := "p" },
      { typeValue := ["object"], parent := some 3 },
      {}],
    resolve := fun r => if r = "#/defs/X" then some 2 else none,
    paths := fun _ => "#", conventions := [] }

/-- The pointer field of the root record in the memo counterexample. -/
def fldC1P : Field :=
  { Name := "P", JSONName := "p", Typ := "*Anonymous1", Required := false,
    Description := "", Format := "" }

/-- The anonymously named record registered by the first run only. -/
def strctC1Anon : Struct :=
  { ID := "", Name := "Anonymous1", Description := "", Fields := [] }

/-- The root record of the memo counterexample. -/
def strctC1Root : Struct :=
  { ID := "", Name := "Root", Description := "", Fields := [("P", fldC1P)] }

/-- State after the first run: both records registered, counter at 1,
both node memos set. -/
def stC1run1 : GenState :=
  { Structs := [("Anonymous1", strctC1Anon), ("Root", strctC1Root)],
    Aliases := [], anonCount := 1, memo := [(0, "*Root"), (2, "*Anonymous1")] }

/-- State after the second run over the same (memoized) nodes: the
reference short-circuits on the surviving memo, so `Anonymous1` is
never re-registered and the counter is never bumped. -/
def stC1run2 : GenState :=
  { Structs := [("Root", strctC1Root)],
    Aliases := [], anonCount := 0, memo := [(0, "*Root"), (2, "*Anonymous1")] }

/-- The date-time-formatted property of the order counterexample. -/
def fldC1A : Field :=
  { Name := "A", JSONName := "a", Typ := "string", Required := false,
    Description := "", Format := "date-time" }

/-- The uuid-formatted property of the order counterexample. -/
def fldC1B : Field :=
  { Name := "B", JSONName := "b", Typ := "string", Required := false,
    Description := "", Format := "uuid" }

/-- An object with two custom-string-format properties, materialized
in the order `a`, `b`. -/
def ctxC1o1 : Ctx :=
  { nodes := [
      { typeValue := ["object"], properties := [("a", 1), ("b", 2)] },
      { typeValue := ["string"], format := "date-time", parent := some 0, jsonKey := "a" },
      { typeValue := ["string"], format := "uuid", parent := some 0, jsonKey := "b" }],
    resolve := fun _ => none, paths := fun _ => "#", conventions := [] }

/-- The same schema tree materialized in the order `b`, `a` — in Go
the two orders are the same map, since the loop at generator.go:215
ranges over `schema.Properties` without fixing an order. -/
def ctxC1o2 : Ctx :=
  { nodes := [
      { typeValue := ["object"], properties := [("b", 2), ("a", 1)] },
      { typeValue := ["string"], format := "date-time", parent := some 0, jsonKey := "a" },
      { typeValue := ["string"], format := "uuid", parent := some 0, jsonKey := "b" }],
    resolve := fun _ => none, paths := fun _ => "#", conventions := [] }

/-- The root record produced under the order `a`, `b`. -/
def strctC1o1 : Struct :=
  { ID := "", Name := "Root", Description := "",
    Fields := [("A", fldC1A), ("B", fldC1B)],
    importTypes := ["time", "github.com/google/uuid"] }

/-- The root record produced under the order `b`, `a`: the import
list, a Go slice, comes out reversed. -/
def strctC1o2 : Struct :=
  { ID := "", Name := "Root", Description := "",
    Fields := [("B", fldC1B), ("A", fldC1A)],
    importTypes := ["github.com/google/uuid", "time"] }

/-- Final state of the order-`a`,`b` run. -/
def stC1o1 : GenState :=
  { Structs := [("Root", strctC1o1)], Aliases := [], anonCount := 0,
    memo := [(0, "*Root")] }

/-- Final state of the order-`b`,`a` run. -/
def stC1o2 : GenState :=
  { Structs := [("Root", strctC1o2)], Aliases := [], anonCount := 0,
    memo := [(0, "*Root")] }

/-- C1 counterexample.  First part: on a fixed set of schema node
trees, two runs with fresh engine instances do NOT yield identical
Type Models, because the `GeneratedType` memo lives on the schema
node and survives constructing a fresh engine (`New` builds only the
`Generator`): the second run short-circuits the `$ref` on the
surviving memo, so the `Anonymous1` record is never registered and
the anonymous counter is never bumped — the Structs registries
differ, and with them the ordered record list the renderer walks, so
the rendered mapping text differs as well (the first run emits a
`MappingAnonymous1` constant and inlines the record into the field
`p`; the second run has no such record and renders `p` through the
keyword fallback).  Second part: the Type Model also depends on the
materialization order of the `Properties` map — which the loop at
generator.go:215 takes from Go map iteration, unspecified per run —
as the two orders of the same two-property object produce records
whose `importTypes` slices differ. -/
theorem c1_counterexample :
    createTypesLoop 8 ctxC1x [0] (freshEngineState []) = .ok stC1run1
    ∧ createTypesLoop 8 ctxC1x [0] (freshEngineState stC1run1.memo) = .ok stC1run2
    ∧ stC1run1.Structs.map Prod.fst ≠ stC1run2.Structs.map Prod.fst
    ∧ stC1run1.anonCount ≠ stC1run2.anonCount
    ∧ getOrderedStructNames stC1run1.Structs ≠ getOrderedStructNames stC1run2.Structs
    ∧ createTypesLoop 8 ctxC1o1 [0] (freshEngineState []) = .ok stC1o1
    ∧ createTypesLoop 8 ctxC1o2 [0] (freshEngineState []) = .ok stC1o2
    ∧ (lookupKV stC1o1.Structs "Root").map Struct.importTypes
        ≠ (lookupKV stC1o2.Structs "Root").map Struct.importTypes := by
  refine ⟨rfl, rfl, by decide, by decide, by decide, rfl, rfl, by decide⟩

/-- A full run from a fresh engine over nodes carrying `memo0`. -/
def resolveAndRenderFrom (fuel : Nat) (ctx : Ctx) (roots : List Nat) (pkg : String)
    (memo0 : List (Nat × String)) : Except (RErr × GenState) (GenState × String) :=
  match createTypesLoop fuel ctx roots (freshEngineState memo0) with
  | .error e => .error e
  | .ok st => .ok (st, ESOutput fuel st pkg)

/-- C1 (amended): resolution and rendering are a function of the
schema arena, the convention table, the materialization order of the
properties/definitions mappings (fixed by the arena's association
lists), and the `GeneratedType` memos the nodes carry at the start of
the run — and of nothing else.  Two runs with fresh engine instances
therefore yield byte-identical Type Models and mapping text whenever
the nodes start with the same memos — in particular over freshly
parsed nodes (all memos unset) with the same materialization order.
They need not coincide otherwise: the memo survives a fresh `New` on
shared nodes, and the Go code leaves the map iteration order
unfixed, as the counterexample shows. -/
theorem c1_amended (fuel : Nat) (ctx : Ctx) (roots : List Nat) (pkg : String)
    (memo1 memo2 : List (Nat × String)) (h : memo1 = memo2) :
    createTypesLoop fuel ctx roots (freshEngineState memo1)
      = createTypesLoop fuel ctx roots (freshEngineState memo2)
    ∧ resolveAndRenderFrom fuel ctx roots pkg memo1
      = resolveAndRenderFrom fuel ctx roots pkg memo2 := by
  subst h
  exact ⟨rfl, rfl⟩

/-- A one-node schema set for the determinism witness. -/
def ctxC1 : Ctx :=
  { nodes := [{ typeValue := ["string"] }], resolve := fun _ => none,
    paths := fun _ => "#", conventions := [] }

/-- C1 witness: two fresh runs over the same freshly parsed schema
set coincide. -/
theorem c1_amended_witness :
    createTypesLoop 3 ctxC1 [0] (freshEngineState [])
      = createTypesLoop 3 ctxC1 [0] (freshEngineState [])
    ∧ resolveAndRenderFrom 3 ctxC1 [0] "models" []
      = resolveAndRenderFrom 3 ctxC1 [0] "models" [] :=
  c1_amended 3 ctxC1 [0] "models" [] [] rfl

end SchemaGen
